import Mathlib

/-!
Verification of the YouTube semantic-search ranking core
(`youtube_semantic_search.py` and the `/search-videos` handler of `main.py`).

Python floats and their arithmetic are modelled exactly over `ℚ`; Python ints
over `ℤ`/`ℕ`; strings over `List Char`; raised exceptions over `Except`.
-/

namespace MLService

/-- One retrieved video candidate: the fields of the candidate dict that the
duration filter and the scoring engine read. `vid` stands for the video id and
keeps distinct candidates distinguishable. -/
structure Video where
  vid : ℕ
  duration_minutes : ℚ
  views : ℤ
  likes : ℤ
deriving DecidableEq

/-- A candidate after step 8 of `semantic_search`: only the final composite
score and an identity are relevant to the ranking pass. -/
structure ScoredVideo where
  vid : ℕ
  final_score : ℚ
deriving DecidableEq

/-- Duration band score of `semantic_search`, source lines 339-348: nested
`if/elif` bands, first match wins. -/
def duration_score (d : ℚ) : ℚ :=
  if 5 ≤ d ∧ d ≤ 10 then 1
  else if 3 ≤ d ∧ d ≤ 12 then 0.9
  else if 2 ≤ d ∧ d ≤ 15 then 0.7
  else 0.5

/-- Recency score of `semantic_search`, source line 337. -/
def recency_score (days : ℤ) : ℚ :=
  if days < 730 then 1 else max 0.3 (1 - ((days : ℚ) - 730) / 1825)

/-- View score of `semantic_search`, source line 327: `min(views / 1000000, 1.0)`. -/
def view_score (views : ℤ) : ℚ := min ((views : ℚ) / 1000000) 1

/-- The guard of `calculate_engagement_score`, source lines 84-85: a zero
`published_days_ago` is replaced by 1. -/
def engagement_days (published_days_ago : ℤ) : ℤ :=
  if published_days_ago = 0 then 1 else published_days_ago

/-- `views_per_day` of `calculate_engagement_score`, source line 88. -/
def views_per_day (views days : ℤ) : ℚ := (views : ℚ) / (days : ℚ)

/-- `like_ratio` of `calculate_engagement_score`, source line 91: likes per
1000 views, taken only when `views > 0`, otherwise 0. -/
def likes_per_thousand (views likes : ℤ) : ℚ :=
  if 0 < views then (likes : ℚ) / (views : ℚ) * 1000 else 0

/-- `calculate_engagement_score`, source lines 80-97. -/
def calculate_engagement_score (views likes published_days_ago : ℤ) : ℚ :=
  let days := engagement_days published_days_ago
  let vpd := views_per_day views days
  let lr := likes_per_thousand views likes
  let vs := min (vpd / 10000) 1
  let ls := min (lr / 50) 1
  vs * 0.7 + ls * 0.3

/-- `get_days_since_published`, source lines 99-107.  The outcome of
`datetime.fromisoformat` on the timestamp is abstracted as `Option ℤ`:
`some d` is a successful parse with `(now - pub_date).days = d`, `none` is any
raised exception (for instance the empty or a malformed timestamp), which the
`except` clause turns into the default 365. -/
def get_days_since_published (parsed : Option ℤ) : ℤ :=
  match parsed with
  | some d => max d 1
  | none => 365

/-- The `days_ago` computation of `semantic_search`, source line 324: when the
`published_at` field is empty the parser is not even called and 365 is used
directly. -/
def days_ago_of (published_at_nonempty : Bool) (parsed : Option ℤ) : ℤ :=
  if published_at_nonempty then get_days_since_published parsed else 365

/-- Insertion into a descending-sorted list: walk past every element with a
strictly greater score and stop before the first element whose score is not
greater, so that earlier-retrieved elements of equal score stay in front.
Together with `sortDesc` this realises the stable descending sort that
`scored_videos.sort(key=..., reverse=True)` performs at source line 399. -/
def insertDesc (a : ScoredVideo) : List ScoredVideo → List ScoredVideo
  | [] => [a]
  | b :: l =>
    if a.final_score < b.final_score then b :: insertDesc a l else a :: b :: l

/-- Stable descending sort by `final_score` (extensionally the behaviour of
Python `list.sort` with `reverse=True`, which is specified as stable). -/
def sortDesc : List ScoredVideo → List ScoredVideo
  | [] => []
  | a :: l => insertDesc a (sortDesc l)

/-- Steps 9-10 of `semantic_search`, source lines 398-402: stable sort by
`final_score` descending, then truncate to the top 10. -/
def rankPass (scored : List ScoredVideo) : List ScoredVideo :=
  (sortDesc scored).take 10

/-- The candidates of a list carrying one given final score, in list order. -/
def filterScore (s : ℚ) (l : List ScoredVideo) : List ScoredVideo :=
  l.filter (fun v => decide (v.final_score = s))

/-- First duration filter pass of `semantic_search`, source line 303:
`duration_minutes <= max_duration_minutes and duration_minutes >= 2`. -/
def first_pass (max_duration_minutes : ℚ) (vs : List Video) : List Video :=
  vs.filter (fun v =>
    decide (v.duration_minutes ≤ max_duration_minutes) && decide (2 ≤ v.duration_minutes))

/-- Relaxed second filter pass of `semantic_search`, source line 308: only
`duration_minutes <= 15`, no lower bound. -/
def relaxed_pass (vs : List Video) : List Video :=
  vs.filter (fun v => decide (v.duration_minutes ≤ 15))

/-- Steps 4-5 of `semantic_search`, source lines 296-310: filter the first
search's results; when nothing survives, re-run the search (`search2` is the
result of that fresh call) and keep only the relaxed upper bound. -/
def duration_filter_pass (max_duration_minutes : ℚ) (search1 search2 : List Video) :
    List Video :=
  if first_pass max_duration_minutes search1 = [] then relaxed_pass search2
  else first_pass max_duration_minutes search1

/-- Numeric value of an ASCII digit character. -/
def digitVal (c : Char) : ℕ := c.toNat - 48

/-- One step of reading a decimal number left to right. -/
def digitStep (a : ℕ) (c : Char) : ℕ := 10 * a + digitVal c

/-- Decimal value of a digit string, as Python `int` computes it. -/
def toNatDigits (l : List Char) : ℕ := l.foldl digitStep 0

/-- The scan behind `re.search` for the pattern digits-then-`c`
(`parse_duration` uses `(\d+)H`, `(\d+)M`, `(\d+)S`, source lines 59-61).
`run` is `some acc` while the scan sits right after a digit run of value
`acc`.  A maximal digit run immediately followed by `c` matches, with value
the run's number; a run followed by anything else fails at every start inside
the run, so the scan resumes after it. -/
def scanNum (c : Char) (run : Option ℕ) : List Char → Option ℕ
  | [] => none
  | y :: t =>
    if y.isDigit then scanNum c (some (digitStep (run.getD 0) y)) t
    else
      match run with
      | some acc => if y = c then some acc else scanNum c none t
      | none => scanNum c none t

/-- `re.search` for the leftmost digit run immediately followed by `c`,
returning its numeric value (the captured group of `(\d+)c`). -/
def findNumBefore (c : Char) (s : List Char) : Option ℕ := scanNum c none s

/-- Python `round` to the nearest integer with ties to even. -/
def roundHalfEven (q : ℚ) : ℤ :=
  if Int.fract q = 1 / 2 then (if ⌊q⌋ % 2 = 0 then ⌊q⌋ else ⌊q⌋ + 1) else round q

/-- Python `round(x, 1)` on exact values: nearest tenth, ties to even. -/
def pyRound1 (q : ℚ) : ℚ := (roundHalfEven (10 * q) : ℚ) / 10

/-- `parse_duration`, source lines 51-71: an empty string yields 0; otherwise
search the string for the three components, treat a missing one as 0, and
return hours times 60 plus minutes plus seconds over 60, rounded to one
decimal. -/
def parse_duration (s : List Char) : ℚ :=
  if s = [] then 0
  else
    pyRound1 (((findNumBefore 'H' s).getD 0 : ℚ) * 60 +
      ((findNumBefore 'M' s).getD 0 : ℚ) + ((findNumBefore 'S' s).getD 0 : ℚ) / 60)

/-- One optional ISO-8601 component: its digits followed by the marker letter,
or nothing when the component is absent. -/
def isoComp (part : Option (List Char)) (c : Char) : List Char :=
  match part with
  | none => []
  | some ds => ds ++ [c]

/-- An ISO-8601 duration string of the form `PT#H#M#S` with each component
optional. -/
def isoDuration (h m s : Option (List Char)) : List Char :=
  'P' :: 'T' :: (isoComp h 'H' ++ (isoComp m 'M' ++ isoComp s 'S'))

/-- The numeric value of an optional component, 0 when absent. -/
def optNum (part : Option (List Char)) : ℕ :=
  match part with
  | none => 0
  | some ds => toNatDigits ds

/-- A present component is a nonempty string of ASCII digits. -/
def DigitRun (part : Option (List Char)) : Prop :=
  ∀ ds ∈ part, ds ≠ [] ∧ ∀ c ∈ ds, c.isDigit = true

/-- Python `str.split(sep)` on character lists: `"".split` gives one empty
part, and every separator occurrence opens a new part. -/
def pySplit (sep : Char) : List Char → List (List Char)
  | [] => [[]]
  | c :: rest =>
    match pySplit sep rest with
    | [] => [[]]
    | p :: ps => if c = sep then [] :: p :: ps else (c :: p) :: ps

/-- Python `int(str)` on the strings that occur as timestamp parts: an
optional sign followed by one or more ASCII digits succeeds, anything else
raises `ValueError` (modelled as `Except.error`). -/
def pyInt (s : List Char) : Except Unit ℤ :=
  match s with
  | [] => Except.error ()
  | x :: rest =>
    if x = '-' then
      if rest ≠ [] ∧ rest.all Char.isDigit = true then Except.ok (-(toNatDigits rest : ℤ))
      else Except.error ()
    else if x = '+' then
      if rest ≠ [] ∧ rest.all Char.isDigit = true then Except.ok (toNatDigits rest : ℤ)
      else Except.error ()
    else
      if (x :: rest).all Char.isDigit = true then Except.ok (toNatDigits (x :: rest) : ℤ)
      else Except.error ()

/-- The timestamp-to-minutes computation of `search_with_fallback`, source
lines 211-217: split on the colon; 2 parts parse as minutes:seconds, 3 parts
as hours:minutes:seconds, any other shape leaves the duration 0.  The `int`
calls may raise. -/
def timestampMinutes (ts : List Char) : Except Unit ℚ :=
  match pySplit ':' ts with
  | p0 :: p1 :: [] => do
    let a ← pyInt p0
    let b ← pyInt p1
    pure ((a : ℚ) + (b : ℚ) / 60)
  | p0 :: p1 :: p2 :: [] => do
    let a ← pyInt p0
    let b ← pyInt p1
    let c ← pyInt p2
    pure ((a : ℚ) * 60 + (b : ℚ) + (c : ℚ) / 60)
  | _ => pure 0

/-- The candidate loop of `search_with_fallback`, source lines 204-238,
restricted to the derived durations: the timestamps are processed in order
and the first one whose parse raises aborts the loop. -/
def fallbackLoop : List (List Char) → Except Unit (List ℚ)
  | [] => Except.ok []
  | ts :: rest => do
    let d ← timestampMinutes ts
    let l ← fallbackLoop rest
    pure (d :: l)

/-- The whole fallback body runs inside one `try`: a raised parse error is
caught by the handler at line 236, which returns the empty list, discarding
every candidate of the call. -/
def fallbackDurations (timestamps : List (List Char)) : List ℚ :=
  match fallbackLoop timestamps with
  | Except.ok l => l
  | Except.error _ => []

/-- The JSON value returned by the `/search-videos` handler. -/
structure SearchResponse where
  success : Bool
  count : Option ℕ
  error : Option (List Char)
  videos : List ScoredVideo
deriving DecidableEq

/-- `search_youtube_videos`, main.py lines 70-108: the whole body runs in one
`try`; a normal return carries `success`, `count` and the videos, and any
exception raised inside (abstracted as `Except.error` with its message)
becomes a structured failure value with an empty video list instead of
propagating. -/
def search_youtube_videos (result : Except (List Char) (List ScoredVideo)) :
    SearchResponse :=
  match result with
  | Except.ok vs => ⟨true, some vs.length, none, vs⟩
  | Except.error e => ⟨false, none, some e, []⟩

/-- Process-wide model state: how many times `SentenceTransformer` has been
constructed, and the cached module-global `semantic_model` (identified by its
load ordinal), `none` while the module is not yet imported. -/
structure ModelState where
  loadCount : ℕ
  cachedModel : Option ℕ
deriving DecidableEq

/-- Python import caching: `from youtube_semantic_search import ...` executes
the module body only when the module is not yet cached; the body constructs
the model exactly once (source line 26) and stores it in the module global
`semantic_model`, which no code path ever reassigns or clears. -/
def importYss (st : ModelState) : ModelState :=
  match st.cachedModel with
  | some _ => st
  | none => ⟨st.loadCount + 1, some st.loadCount⟩

/-- One `/search-videos` request (main.py line 76): the handler imports the
module — loading the model on first use only — and every embedding call inside
the request goes through the cached instance and leaves the state unchanged. -/
def searchCall (st : ModelState) : ModelState := importYss st

/-- Process start: no model loaded. -/
def initialState : ModelState := ⟨0, none⟩

/-- The model state after `n` search requests. -/
def afterCalls (n : ℕ) : ModelState := searchCall^[n] initialState

theorem filterScore_nil (s : ℚ) : filterScore s [] = [] := rfl

theorem filterScore_cons (s : ℚ) (b : ScoredVideo) (l : List ScoredVideo) :
    filterScore s (b :: l) =
      if b.final_score = s then b :: filterScore s l else filterScore s l := by
  by_cases h : b.final_score = s <;> simp [filterScore, h]

theorem insertDesc_filterScore (a : ScoredVideo) (l : List ScoredVideo) (s : ℚ) :
    filterScore s (insertDesc a l) =
      if a.final_score = s then a :: filterScore s l else filterScore s l := by
  induction l with
  | nil => simp [insertDesc, filterScore_cons, filterScore_nil]
  | cons b t ih =>
    by_cases hab : a.final_score < b.final_score
    · have h1 : insertDesc a (b :: t) = b :: insertDesc a t := by
        simp [insertDesc, hab]
      by_cases hb : b.final_score = s
      · have has : ¬ a.final_score = s := by
          intro h
          exact absurd hab (by rw [h, hb]; exact lt_irrefl s)
        rw [h1, filterScore_cons, if_pos hb, ih, if_neg has, filterScore_cons,
          if_pos hb, if_neg has]
      · rw [h1, filterScore_cons, if_neg hb, ih, filterScore_cons, if_neg hb]
    · have h1 : insertDesc a (b :: t) = a :: b :: t := by
        simp [insertDesc, hab]
      rw [h1, filterScore_cons]

theorem sortDesc_filterScore (l : List ScoredVideo) (s : ℚ) :
    filterScore s (sortDesc l) = filterScore s l := by
  induction l with
  | nil => rfl
  | cons a t ih =>
    show filterScore s (insertDesc a (sortDesc t)) = filterScore s (a :: t)
    rw [insertDesc_filterScore, filterScore_cons, ih]

theorem mem_insertDesc (a x : ScoredVideo) (l : List ScoredVideo) :
    x ∈ insertDesc a l ↔ x = a ∨ x ∈ l := by
  induction l with
  | nil => simp [insertDesc]
  | cons b t ih =>
    by_cases hab : a.final_score < b.final_score
    · simp only [insertDesc, if_pos hab, List.mem_cons, ih]
      tauto
    · simp only [insertDesc, if_neg hab, List.mem_cons]

theorem pairwise_insertDesc (a : ScoredVideo) (l : List ScoredVideo)
    (h : l.Pairwise (fun u v => v.final_score ≤ u.final_score)) :
    (insertDesc a l).Pairwise (fun u v => v.final_score ≤ u.final_score) := by
  induction l with
  | nil => simp [insertDesc]
  | cons b t ih =>
    rw [List.pairwise_cons] at h
    by_cases hab : a.final_score < b.final_score
    · have h1 : insertDesc a (b :: t) = b :: insertDesc a t := by
        simp [insertDesc, hab]
      rw [h1, List.pairwise_cons]
      refine ⟨?_, ih h.2⟩
      intro x hx
      rcases (mem_insertDesc a x t).mp hx with rfl | hx
      · exact le_of_lt hab
      · exact h.1 x hx
    · have h1 : insertDesc a (b :: t) = a :: b :: t := by
        simp [insertDesc, hab]
      rw [h1, List.pairwise_cons]
      refine ⟨?_, List.Pairwise.cons h.1 h.2⟩
      intro x hx
      rcases List.mem_cons.mp hx with rfl | hx
      · exact not_lt.mp hab
      · exact le_trans (h.1 x hx) (not_lt.mp hab)

theorem sortDesc_pairwise (l : List ScoredVideo) :
    (sortDesc l).Pairwise (fun u v => v.final_score ≤ u.final_score) := by
  induction l with
  | nil => exact List.Pairwise.nil
  | cons a t ih => exact pairwise_insertDesc a (sortDesc t) ih

theorem length_insertDesc (a : ScoredVideo) (l : List ScoredVideo) :
    (insertDesc a l).length = l.length + 1 := by
  induction l with
  | nil => rfl
  | cons b t ih =>
    by_cases hab : a.final_score < b.final_score <;> simp [insertDesc, hab, ih]

theorem length_sortDesc (l : List ScoredVideo) : (sortDesc l).length = l.length := by
  induction l with
  | nil => rfl
  | cons a t ih =>
    show (insertDesc a (sortDesc t)).length = (a :: t).length
    rw [length_insertDesc, ih, List.length_cons]

/-- C1: the list returned by the ranking pass is sorted in descending order of
`final_score`; candidates of any equal `final_score` appear in their original
retrieval order (the score-s candidates of the output are a prefix of the
score-s candidates of the input in input order); and its length is
`min 10 n` for `n` surviving candidates — at most 10, and exactly 10 when at
least 10 candidates survive filtering. -/
theorem claim_C1 (l : List ScoredVideo) :
    (rankPass l).Pairwise (fun u v => v.final_score ≤ u.final_score) ∧
    (∀ s : ℚ, filterScore s (rankPass l) <+: filterScore s l) ∧
    (rankPass l).length = min 10 l.length := by
  refine ⟨?_, ?_, ?_⟩
  · exact List.Pairwise.sublist (List.take_sublist 10 (sortDesc l)) (sortDesc_pairwise l)
  · intro s
    rw [← sortDesc_filterScore l s]
    refine ⟨filterScore s ((sortDesc l).drop 10), ?_⟩
    show (List.take 10 (sortDesc l)).filter _ ++ (List.drop 10 (sortDesc l)).filter _ = _
    rw [← List.filter_append, List.take_append_drop]
    rfl
  · rw [rankPass, List.length_take, length_sortDesc]

/-- C2: the first filter pass keeps exactly the candidates with
`2 ≤ duration_minutes ≤ max_duration_minutes`; when it is empty the search is
re-run (the fresh call's results are `search2`) and the second pass keeps
exactly the candidates with `duration_minutes ≤ 15`, with no lower bound; when
both passes are empty the surviving list is empty rather than an error. -/
theorem claim_C2 (maxd : ℚ) (s1 s2 : List Video) :
    (∀ v, v ∈ first_pass maxd s1 ↔
      v ∈ s1 ∧ 2 ≤ v.duration_minutes ∧ v.duration_minutes ≤ maxd) ∧
    (first_pass maxd s1 ≠ [] → duration_filter_pass maxd s1 s2 = first_pass maxd s1) ∧
    (first_pass maxd s1 = [] → duration_filter_pass maxd s1 s2 = relaxed_pass s2) ∧
    (∀ v, v ∈ relaxed_pass s2 ↔ v ∈ s2 ∧ v.duration_minutes ≤ 15) ∧
    (first_pass maxd s1 = [] ∧ relaxed_pass s2 = [] →
      duration_filter_pass maxd s1 s2 = []) := by
  refine ⟨?_, ?_, ?_, ?_, ?_⟩
  · intro v
    rw [first_pass, List.mem_filter]
    simp only [Bool.and_eq_true, decide_eq_true_eq]
    tauto
  · intro h
    rw [duration_filter_pass, if_neg h]
  · intro h
    rw [duration_filter_pass, if_pos h]
  · intro v
    rw [relaxed_pass, List.mem_filter]
    simp only [decide_eq_true_eq]
  · intro h
    rw [duration_filter_pass, if_pos h.1, h.2]

theorem claim_C2_witness :
    duration_filter_pass 10 (⟨1, 5, 0, 0⟩ :: []) [] = first_pass 10 (⟨1, 5, 0, 0⟩ :: []) :=
  (claim_C2 10 (⟨1, 5, 0, 0⟩ :: []) []).2.1 (by decide)

/-- C3: the duration score is 1.0 on the band 5..10, 0.9 on 3..12 outside the
first band, 0.7 on 2..15 outside the prior bands, and 0.5 otherwise; in
particular 7, 4, 13, 20 and the boundary 2 give 1.0, 0.9, 0.7, 0.5 and 0.7. -/
theorem claim_C3 (d : ℚ) :
    (5 ≤ d ∧ d ≤ 10 → duration_score d = 1) ∧
    (3 ≤ d ∧ d ≤ 12 ∧ ¬(5 ≤ d ∧ d ≤ 10) → duration_score d = 0.9) ∧
    (2 ≤ d ∧ d ≤ 15 ∧ ¬(3 ≤ d ∧ d ≤ 12) ∧ ¬(5 ≤ d ∧ d ≤ 10) →
      duration_score d = 0.7) ∧
    (¬(5 ≤ d ∧ d ≤ 10) ∧ ¬(3 ≤ d ∧ d ≤ 12) ∧ ¬(2 ≤ d ∧ d ≤ 15) →
      duration_score d = 0.5) ∧
    duration_score 7 = 1 ∧ duration_score 4 = 0.9 ∧ duration_score 13 = 0.7 ∧
    duration_score 20 = 0.5 ∧ duration_score 2 = 0.7 := by
  refine ⟨?_, ?_, ?_, ?_, by norm_num [duration_score], by norm_num [duration_score],
    by norm_num [duration_score], by norm_num [duration_score], by norm_num [duration_score]⟩
  · intro h
    rw [duration_score, if_pos h]
  · intro h
    rw [duration_score, if_neg h.2.2, if_pos ⟨h.1, h.2.1⟩]
  · intro h
    rw [duration_score, if_neg h.2.2.2, if_neg h.2.2.1, if_pos ⟨h.1, h.2.1⟩]
  · intro h
    rw [duration_score, if_neg h.1, if_neg h.2.1, if_neg h.2.2]

theorem claim_C3_witness : duration_score 6 = 1 := (claim_C3 6).1 (by decide)

/-- C4: the recency score is 1.0 for fewer than 730 days and
`max(0.3, 1 - (days - 730)/1825)` otherwise; days 1 and 730 give 1.0, day 731
gives strictly less than 1.0, and day 2555 gives 0.3. -/
theorem claim_C4 (days : ℤ) :
    (days < 730 → recency_score days = 1) ∧
    (730 ≤ days → recency_score days = max 0.3 (1 - ((days : ℚ) - 730) / 1825)) ∧
    recency_score 1 = 1 ∧ recency_score 730 = 1 ∧
    recency_score 731 < 1 ∧ recency_score 2555 = 0.3 := by
  refine ⟨?_, ?_, ?_, ?_, ?_, ?_⟩
  · intro h
    rw [recency_score, if_pos h]
  · intro h
    rw [recency_score, if_neg (not_lt.mpr h)]
  · rw [recency_score, if_pos (by decide)]
  · rw [recency_score, if_neg (by decide)]
    have h1 : (1 : ℚ) - (((730 : ℤ) : ℚ) - 730) / 1825 = 1 := by norm_num
    rw [h1, max_eq_right (by norm_num)]
  · rw [recency_score, if_neg (by decide)]
    have h1 : (1 : ℚ) - (((731 : ℤ) : ℚ) - 730) / 1825 = 1824 / 1825 := by norm_num
    rw [h1, max_eq_right (by norm_num)]
    norm_num
  · rw [recency_score, if_neg (by decide)]
    have h1 : (1 : ℚ) - (((2555 : ℤ) : ℚ) - 730) / 1825 = 0 := by norm_num
    rw [h1, max_eq_left (by norm_num)]

theorem claim_C4_witness : recency_score 100 = 1 := (claim_C4 100).1 (by decide)

/-- C5: with non-negative views and likes and at least one day since
publication, the views score and the engagement score lie in [0, 1], the
recency score lies in [0.3, 1], and the duration score takes one of the four
band values. -/
theorem claim_C5 (views likes days : ℤ) (hv : 0 ≤ views) (hl : 0 ≤ likes)
    (hd : 1 ≤ days) :
    (0 ≤ view_score views ∧ view_score views ≤ 1) ∧
    (0 ≤ calculate_engagement_score views likes days ∧
      calculate_engagement_score views likes days ≤ 1) ∧
    (0.3 ≤ recency_score days ∧ recency_score days ≤ 1) ∧
    (∀ d : ℚ, duration_score d = 1 ∨ duration_score d = 0.9 ∨
      duration_score d = 0.7 ∨ duration_score d = 0.5) := by
  have hvq : (0 : ℚ) ≤ (views : ℚ) := by exact_mod_cast hv
  have hdq : (0 : ℚ) ≤ (days : ℚ) := by exact_mod_cast le_trans zero_le_one hd
  refine ⟨⟨?_, ?_⟩, ?_, ⟨?_, ?_⟩, ?_⟩
  · exact le_min (div_nonneg hvq (by norm_num)) zero_le_one
  · exact min_le_right _ _
  · have hdays : engagement_days days = days := by
      rw [engagement_days, if_neg (by omega)]
    have hcal : calculate_engagement_score views likes days =
        min (views_per_day views days / 10000) 1 * 0.7 +
          min (likes_per_thousand views likes / 50) 1 * 0.3 := by
      simp only [calculate_engagement_score, hdays]
    have hvpd : 0 ≤ views_per_day views days := div_nonneg hvq hdq
    have h1 : 0 ≤ min (views_per_day views days / 10000) 1 :=
      le_min (div_nonneg hvpd (by norm_num)) zero_le_one
    have h2 : min (views_per_day views days / 10000) 1 ≤ 1 := min_le_right _ _
    have hlr : 0 ≤ likes_per_thousand views likes := by
      rw [likes_per_thousand]
      split_ifs with h
      · have hlq : (0 : ℚ) ≤ (likes : ℚ) := by exact_mod_cast hl
        have hvq2 : (0 : ℚ) ≤ (views : ℚ) := hvq
        positivity
      · exact le_refl 0
    have h3 : 0 ≤ min (likes_per_thousand views likes / 50) 1 :=
      le_min (div_nonneg hlr (by norm_num)) zero_le_one
    have h4 : min (likes_per_thousand views likes / 50) 1 ≤ 1 := min_le_right _ _
    rw [hcal]
    constructor <;> nlinarith [h1, h2, h3, h4]
  · rw [recency_score]
    split_ifs with h
    · norm_num
    · exact le_max_left _ _
  · rw [recency_score]
    split_ifs with h
    · exact le_refl 1
    · have h730 : (730 : ℚ) ≤ (days : ℚ) := by exact_mod_cast not_lt.mp h
      have hfrac : (0 : ℚ) ≤ ((days : ℚ) - 730) / 1825 :=
        div_nonneg (by linarith) (by norm_num)
      refine max_le (by norm_num) (by linarith)
  · intro d
    rw [duration_score]
    split_ifs <;> norm_num

theorem claim_C5_witness :
    0 ≤ calculate_engagement_score 100 10 5 ∧ calculate_engagement_score 100 10 5 ≤ 1 :=
  (claim_C5 100 10 5 (by decide) (by decide) (by decide)).2.1

/-- C8: the `/search-videos` handler converts every exception raised inside it
into the structured value success=false, error message, empty videos, and on a
normal return yields success=true with count equal to the number of returned
videos. -/
theorem claim_C8 (e : List Char) (vs : List ScoredVideo) :
    search_youtube_videos (Except.error e) = ⟨false, none, some e, []⟩ ∧
    search_youtube_videos (Except.ok vs) = ⟨true, some vs.length, none, vs⟩ ∧
    (search_youtube_videos (Except.ok vs)).count =
      some (search_youtube_videos (Except.ok vs)).videos.length :=
  ⟨rfl, rfl, rfl⟩

/-- C9: no model load happens before the first search request, the first
request triggers exactly one load, and every subsequent request reuses the
same cached instance (load ordinal 0), which is never invalidated; the import
step is idempotent. -/
theorem claim_C9 :
    (afterCalls 0).loadCount = 0 ∧
    (∀ n : ℕ, afterCalls (n + 1) = ⟨1, some 0⟩) ∧
    (∀ st : ModelState, importYss (importYss st) = importYss st) := by
  refine ⟨rfl, ?_, ?_⟩
  · intro n
    induction n with
    | zero => rfl
    | succ k ih =>
      have h : afterCalls (k + 1 + 1) = searchCall (afterCalls (k + 1)) := by
        rw [afterCalls, afterCalls, Function.iterate_succ_apply']
      rw [h, ih]
      rfl
  · intro st
    rcases st with ⟨n, c⟩
    cases c <;> rfl

/-- C10: `get_days_since_published` always returns at least 1 (the parsed day
count floored at 1, or the default 365 on empty or unparsable input), the
denominator actually used by the views-per-day division is therefore never
zero, and the like-ratio division is taken only when views are positive. -/
theorem claim_C10 (parsed : Option ℤ) (published_at_nonempty : Bool)
    (views likes : ℤ) :
    1 ≤ get_days_since_published parsed ∧
    1 ≤ days_ago_of published_at_nonempty parsed ∧
    engagement_days (days_ago_of published_at_nonempty parsed) ≠ 0 ∧
    (¬ 0 < views → likes_per_thousand views likes = 0) := by
  have hg : 1 ≤ get_days_since_published parsed := by
    rcases parsed with _ | d
    · decide
    · exact le_max_right d 1
  have hdago : 1 ≤ days_ago_of published_at_nonempty parsed := by
    cases published_at_nonempty
    · norm_num [days_ago_of]
    · simpa [days_ago_of] using hg
  refine ⟨hg, hdago, ?_, ?_⟩
  · rw [engagement_days, if_neg (by omega)]
    omega
  · intro h
    rw [likes_per_thousand, if_neg h]

theorem claim_C10_witness :
    1 ≤ get_days_since_published none ∧ likes_per_thousand 0 5 = 0 :=
  ⟨(claim_C10 none false 0 5).1, (claim_C10 none false 0 5).2.2.2 (by decide)⟩

theorem scanNum_digit (c : Char) (run : Option ℕ) (y : Char) (t : List Char)
    (hy : y.isDigit = true) :
    scanNum c run (y :: t) = scanNum c (some (digitStep (run.getD 0) y)) t := by
  simp only [scanNum]
  rw [if_pos hy]

theorem scanNum_none_nondigit (c y : Char) (t : List Char) (hy : y.isDigit = false) :
    scanNum c none (y :: t) = scanNum c none t := by
  simp only [scanNum]
  rw [if_neg (by rw [hy]; exact Bool.false_ne_true)]

theorem scanNum_some_marker (c : Char) (acc : ℕ) (t : List Char)
    (hc : c.isDigit = false) :
    scanNum c (some acc) (c :: t) = some acc := by
  simp only [scanNum]
  rw [if_neg (by rw [hc]; exact Bool.false_ne_true)]
  simp

theorem scanNum_some_fail (c y : Char) (acc : ℕ) (t : List Char)
    (hy : y.isDigit = false) (hyc : y ≠ c) :
    scanNum c (some acc) (y :: t) = scanNum c none t := by
  simp only [scanNum]
  rw [if_neg (by rw [hy]; exact Bool.false_ne_true)]
  simp [hyc]

theorem scanNum_run (c : Char) (acc : ℕ) (ds t : List Char)
    (hds : ∀ x ∈ ds, x.isDigit = true) :
    scanNum c (some acc) (ds ++ t) = scanNum c (some (List.foldl digitStep acc ds)) t := by
  induction ds generalizing acc with
  | nil => simp
  | cons d rest ih =>
    rw [List.cons_append, scanNum_digit c (some acc) d _ (hds d (by simp))]
    rw [Option.getD_some, ih (digitStep acc d) (fun x hx => hds x (by simp [hx]))]
    rw [List.foldl_cons]

theorem scanNum_start (c d : Char) (ds t : List Char) (hd : d.isDigit = true)
    (hds : ∀ x ∈ ds, x.isDigit = true) :
    scanNum c none ((d :: ds) ++ t) = scanNum c (some (toNatDigits (d :: ds))) t := by
  rw [List.cons_append, scanNum_digit c none d _ hd]
  rw [scanNum_run c _ ds t hds]
  rfl

theorem findNumBefore_nondigit (c y : Char) (t : List Char) (hy : y.isDigit = false) :
    findNumBefore c (y :: t) = findNumBefore c t :=
  scanNum_none_nondigit c y t hy

theorem findNumBefore_hit (c : Char) (ds t : List Char) (hc : c.isDigit = false)
    (hne : ds ≠ []) (hds : ∀ x ∈ ds, x.isDigit = true) :
    findNumBefore c (ds ++ c :: t) = some (toNatDigits ds) := by
  cases ds with
  | nil => exact absurd rfl hne
  | cons d rest =>
    rw [findNumBefore, scanNum_start c d rest (c :: t) (hds d (by simp))
      (fun x hx => hds x (by simp [hx]))]
    exact scanNum_some_marker c _ t hc

theorem findNumBefore_skip (c : Char) (ds : List Char) (e : Char) (t : List Char)
    (hne : ds ≠ []) (hds : ∀ x ∈ ds, x.isDigit = true)
    (he : e.isDigit = false) (hec : e ≠ c) :
    findNumBefore c (ds ++ e :: t) = findNumBefore c t := by
  cases ds with
  | nil => exact absurd rfl hne
  | cons d rest =>
    rw [findNumBefore, scanNum_start c d rest (e :: t) (hds d (by simp))
      (fun x hx => hds x (by simp [hx]))]
    exact scanNum_some_fail c e _ t he hec

theorem findNumBefore_PT (c : Char) (t : List Char) :
    findNumBefore c ('P' :: 'T' :: t) = findNumBefore c t := by
  rw [findNumBefore_nondigit c 'P' _ (by decide), findNumBefore_nondigit c 'T' _ (by decide)]

theorem digitRun_none : DigitRun none := by
  intro ds hds
  cases hds

theorem digitRun_some (l : List Char) (h1 : l ≠ []) (h2 : ∀ c ∈ l, c.isDigit = true) :
    DigitRun (some l) := by
  intro ds hds
  cases hds
  exact ⟨h1, h2⟩

theorem findNumBefore_skipComp (c : Char) (part : Option (List Char)) (mk : Char)
    (D : DigitRun part) (hmk : mk.isDigit = false) (hne : mk ≠ c) (t : List Char) :
    findNumBefore c (isoComp part mk ++ t) = findNumBefore c t := by
  rcases part with _ | ds
  · rfl
  · obtain ⟨hne2, hds⟩ := D ds rfl
    rw [isoComp, List.append_assoc, List.singleton_append]
    exact findNumBefore_skip c ds mk t hne2 hds hmk hne

theorem findNumBefore_hitComp (c : Char) (ds t : List Char) (hc : c.isDigit = false)
    (hne : ds ≠ []) (hds : ∀ x ∈ ds, x.isDigit = true) :
    findNumBefore c (isoComp (some ds) c ++ t) = some (toNatDigits ds) := by
  rw [isoComp, List.append_assoc, List.singleton_append]
  exact findNumBefore_hit c ds t hc hne hds

theorem findNumBefore_isoH (h m s : Option (List Char)) (Dh : DigitRun h)
    (Dm : DigitRun m) (Ds : DigitRun s) :
    findNumBefore 'H' (isoDuration h m s) = Option.map toNatDigits h := by
  rcases h with _ | dh
  · rw [isoDuration, findNumBefore_PT, isoComp, List.nil_append]
    rw [findNumBefore_skipComp 'H' m 'M' Dm (by decide) (by decide)]
    rw [← List.append_nil (isoComp s 'S')]
    rw [findNumBefore_skipComp 'H' s 'S' Ds (by decide) (by decide)]
    rfl
  · obtain ⟨hne, hds⟩ := Dh dh rfl
    rw [isoDuration, findNumBefore_PT]
    rw [findNumBefore_hitComp 'H' dh _ (by decide) hne hds]
    rfl

theorem findNumBefore_isoM (h m s : Option (List Char)) (Dh : DigitRun h)
    (Dm : DigitRun m) (Ds : DigitRun s) :
    findNumBefore 'M' (isoDuration h m s) = Option.map toNatDigits m := by
  rw [isoDuration, findNumBefore_PT]
  rw [findNumBefore_skipComp 'M' h 'H' Dh (by decide) (by decide)]
  rcases m with _ | dm
  · rw [isoComp, List.nil_append]
    rw [← List.append_nil (isoComp s 'S')]
    rw [findNumBefore_skipComp 'M' s 'S' Ds (by decide) (by decide)]
    rfl
  · obtain ⟨hne, hds⟩ := Dm dm rfl
    rw [findNumBefore_hitComp 'M' dm _ (by decide) hne hds]
    rfl

theorem findNumBefore_isoS (h m s : Option (List Char)) (Dh : DigitRun h)
    (Dm : DigitRun m) (Ds : DigitRun s) :
    findNumBefore 'S' (isoDuration h m s) = Option.map toNatDigits s := by
  rw [isoDuration, findNumBefore_PT]
  rw [findNumBefore_skipComp 'S' h 'H' Dh (by decide) (by decide)]
  rw [findNumBefore_skipComp 'S' m 'M' Dm (by decide) (by decide)]
  rcases s with _ | ds
  · rfl
  · obtain ⟨hne, hds⟩ := Ds ds rfl
    rw [← List.append_nil (isoComp (some ds) 'S')]
    rw [findNumBefore_hitComp 'S' ds _ (by decide) hne hds]
    rfl

theorem getD_map_toNatDigits (p : Option (List Char)) :
    (Option.map toNatDigits p).getD 0 = optNum p := by
  rcases p with _ | l <;> rfl

theorem pyRound1_int (q : ℚ) (n : ℤ) (h : 10 * q = (n : ℚ)) :
    pyRound1 q = (n : ℚ) / 10 := by
  rw [pyRound1, roundHalfEven, h, Int.fract_intCast]
  rw [if_neg (by norm_num)]
  rw [round_intCast]

/-- C6: for every ISO-8601 duration string of the form `PT#H#M#S` with each
component optional, `parse_duration` returns hours times 60 plus minutes plus
seconds over 60 (missing components count 0), rounded to one decimal; in
particular `PT10M30S` parses to 10.5, `PT1H5M` to 65.0, and the empty string
to 0. -/
theorem claim_C6 :
    (∀ (h m s : Option (List Char)), DigitRun h → DigitRun m → DigitRun s →
      parse_duration (isoDuration h m s) =
        pyRound1 ((optNum h : ℚ) * 60 + (optNum m : ℚ) + (optNum s : ℚ) / 60)) ∧
    parse_duration ['P', 'T', '1', '0', 'M', '3', '0', 'S'] = 10.5 ∧
    parse_duration ['P', 'T', '1', 'H', '5', 'M'] = 65 ∧
    parse_duration [] = 0 := by
  have hgen : ∀ (h m s : Option (List Char)), DigitRun h → DigitRun m → DigitRun s →
      parse_duration (isoDuration h m s) =
        pyRound1 ((optNum h : ℚ) * 60 + (optNum m : ℚ) + (optNum s : ℚ) / 60) := by
    intro h m s Dh Dm Ds
    have hne : isoDuration h m s ≠ [] := by simp [isoDuration]
    rw [parse_duration, if_neg hne]
    rw [findNumBefore_isoH h m s Dh Dm Ds, findNumBefore_isoM h m s Dh Dm Ds,
      findNumBefore_isoS h m s Dh Dm Ds]
    rw [getD_map_toNatDigits, getD_map_toNatDigits, getD_map_toNatDigits]
  refine ⟨hgen, ?_, ?_, by rw [parse_duration, if_pos rfl]⟩
  · have e1 : (['P', 'T', '1', '0', 'M', '3', '0', 'S'] : List Char) =
        isoDuration none (some ['1', '0']) (some ['3', '0']) := by decide
    rw [e1, hgen none (some ['1', '0']) (some ['3', '0']) digitRun_none
      (digitRun_some _ (by decide) (by decide)) (digitRun_some _ (by decide) (by decide))]
    have e2 : optNum (none : Option (List Char)) = 0 := rfl
    have e3 : optNum (some ['1', '0']) = 10 := by decide
    have e4 : optNum (some ['3', '0']) = 30 := by decide
    rw [e2, e3, e4]
    rw [pyRound1_int _ 105 (by push_cast; ring_nf)]
    norm_num
  · have e1 : (['P', 'T', '1', 'H', '5', 'M'] : List Char) =
        isoDuration (some ['1']) (some ['5']) none := by decide
    rw [e1, hgen (some ['1']) (some ['5']) none
      (digitRun_some _ (by decide) (by decide)) (digitRun_some _ (by decide) (by decide))
      digitRun_none]
    have e2 : optNum (some ['1']) = 1 := by decide
    have e3 : optNum (some ['5']) = 5 := by decide
    have e4 : optNum (none : Option (List Char)) = 0 := rfl
    rw [e2, e3, e4]
    rw [pyRound1_int _ 650 (by push_cast; ring_nf)]
    norm_num

theorem claim_C6_witness :
    parse_duration (isoDuration (some ['2']) (some ['1', '5']) (some ['3', '0'])) =
      pyRound1 ((optNum (some ['2']) : ℚ) * 60 + (optNum (some ['1', '5']) : ℚ) +
        (optNum (some ['3', '0']) : ℚ) / 60) :=
  claim_C6.1 (some ['2']) (some ['1', '5']) (some ['3', '0'])
    (digitRun_some _ (by decide) (by decide)) (digitRun_some _ (by decide) (by decide))
    (digitRun_some _ (by decide) (by decide))

theorem exceptOkBind {α β : Type} (a : α) (f : α → Except Unit β) :
    (Except.ok a >>= f) = f a := rfl

theorem exceptErrBind {α β : Type} (f : α → Except Unit β) :
    ((Except.error () : Except Unit α) >>= f) = Except.error () := rfl

theorem digits_no_colon (a : List Char) (ha : a.all Char.isDigit = true) :
    ∀ x ∈ a, x ≠ ':' := by
  intro x hx h
  have hd := List.all_eq_true.mp ha x hx
  rw [h] at hd
  exact absurd hd (by decide)

theorem pySplit_ne_nil (sep : Char) (l : List Char) : pySplit sep l ≠ [] := by
  cases l with
  | nil => simp [pySplit]
  | cons c rest =>
    cases h : pySplit sep rest with
    | nil => simp [pySplit, h]
    | cons p ps =>
      by_cases hc : c = sep <;> simp [pySplit, h, hc]

theorem pySplit_no_sep (sep : Char) (a : List Char) (h : ∀ x ∈ a, x ≠ sep) :
    pySplit sep a = [a] := by
  induction a with
  | nil => rfl
  | cons c rest ih =>
    have hc : c ≠ sep := h c (by simp)
    have ih2 : pySplit sep rest = [rest] := ih (fun x hx => h x (by simp [hx]))
    simp [pySplit, ih2, hc]

theorem pySplit_append (sep : Char) (a rest : List Char) (h : ∀ x ∈ a, x ≠ sep) :
    pySplit sep (a ++ sep :: rest) = a :: pySplit sep rest := by
  induction a with
  | nil =>
    cases hr : pySplit sep rest with
    | nil => exact absurd hr (pySplit_ne_nil sep rest)
    | cons p ps => simp [pySplit, hr]
  | cons c a2 ih =>
    have hc : c ≠ sep := h c (by simp)
    have ih2 := ih (fun x hx => h x (by simp [hx]))
    simp only [List.cons_append, pySplit, List.append_eq]
    rw [ih2]
    simp [hc]

theorem pyInt_digits (a : List Char) (hne : a ≠ []) (ha : a.all Char.isDigit = true) :
    pyInt a = Except.ok (toNatDigits a : ℤ) := by
  cases a with
  | nil => exact absurd rfl hne
  | cons x rest =>
    have hx : x.isDigit = true := List.all_eq_true.mp ha x (by simp)
    have hx1 : x ≠ '-' := by
      intro h
      rw [h] at hx
      exact absurd hx (by decide)
    have hx2 : x ≠ '+' := by
      intro h
      rw [h] at hx
      exact absurd hx (by decide)
    simp only [pyInt]
    rw [if_neg hx1, if_neg hx2, if_pos ha]

theorem timestampMinutes_two (a b : List Char) (hna : a ≠ []) (hnb : b ≠ [])
    (ha : a.all Char.isDigit = true) (hb : b.all Char.isDigit = true) :
    timestampMinutes (a ++ ':' :: b) =
      Except.ok ((toNatDigits a : ℚ) + (toNatDigits b : ℚ) / 60) := by
  have hsplit : pySplit ':' (a ++ ':' :: b) = [a, b] := by
    rw [pySplit_append ':' a b (digits_no_colon a ha),
      pySplit_no_sep ':' b (digits_no_colon b hb)]
  simp only [timestampMinutes, hsplit]
  rw [pyInt_digits a hna ha, exceptOkBind, pyInt_digits b hnb hb, exceptOkBind]
  simp
  rfl

theorem timestampMinutes_three (a b c : List Char) (hna : a ≠ []) (hnb : b ≠ [])
    (hnc : c ≠ []) (ha : a.all Char.isDigit = true) (hb : b.all Char.isDigit = true)
    (hc : c.all Char.isDigit = true) :
    timestampMinutes (a ++ ':' :: (b ++ ':' :: c)) =
      Except.ok ((toNatDigits a : ℚ) * 60 + (toNatDigits b : ℚ) +
        (toNatDigits c : ℚ) / 60) := by
  have hsplit : pySplit ':' (a ++ ':' :: (b ++ ':' :: c)) = [a, b, c] := by
    rw [pySplit_append ':' a _ (digits_no_colon a ha),
      pySplit_append ':' b c (digits_no_colon b hb),
      pySplit_no_sep ':' c (digits_no_colon c hc)]
  simp only [timestampMinutes, hsplit]
  rw [pyInt_digits a hna ha, exceptOkBind, pyInt_digits b hnb hb, exceptOkBind,
    pyInt_digits c hnc hc, exceptOkBind]
  simp
  rfl

theorem timestampMinutes_other (ts : List Char) (h2 : (pySplit ':' ts).length ≠ 2)
    (h3 : (pySplit ':' ts).length ≠ 3) : timestampMinutes ts = Except.ok 0 := by
  simp only [timestampMinutes]
  cases hs : pySplit ':' ts with
  | nil => rfl
  | cons p0 r1 =>
    cases r1 with
    | nil => rfl
    | cons p1 r2 =>
      cases r2 with
      | nil =>
        rw [hs] at h2
        simp at h2
      | cons p2 r3 =>
        cases r3 with
        | nil =>
          rw [hs] at h3
          simp at h3
        | cons p3 r4 => rfl

theorem fallbackLoop_error (pre post : List (List Char)) (ts : List Char)
    (h : timestampMinutes ts = Except.error ()) :
    fallbackLoop (pre ++ ts :: post) = Except.error () := by
  induction pre with
  | nil =>
    simp only [List.nil_append, fallbackLoop]
    rw [h, exceptErrBind]
  | cons p pre2 ih =>
    simp only [List.cons_append, fallbackLoop]
    cases hp : timestampMinutes p with
    | error e =>
      cases e
      rw [exceptErrBind]
    | ok v =>
      rw [exceptOkBind]
      simp only [List.append_eq]
      rw [ih, exceptErrBind]

/-- C7, counterexample to "any malformed input silently yields a duration of 0
without raising an error or discarding other candidates": the 2-part colon
string `1:a` makes `int` raise, and that exception empties the whole fallback
result, discarding the well-formed candidate `5:30`. -/
theorem claim_C7_counterexample :
    timestampMinutes ['1', ':', 'a'] = Except.error () ∧
    fallbackDurations [['5', ':', '3', '0'], ['1', ':', 'a']] = [] := ⟨rfl, rfl⟩

/-- C7 amended: a 2-part colon string of digit parts parses as
minutes:seconds and a 3-part one as hours:minutes:seconds; an input whose
colon-split has any other number of parts silently yields 0; but a 2- or
3-part input with a non-numeric part raises, and the exception handler of the
fallback then returns the empty list, discarding every candidate of that
call. -/
theorem claim_C7_amended :
    (∀ a b : List Char, a ≠ [] → b ≠ [] →
      a.all Char.isDigit = true → b.all Char.isDigit = true →
      timestampMinutes (a ++ ':' :: b) =
        Except.ok ((toNatDigits a : ℚ) + (toNatDigits b : ℚ) / 60)) ∧
    (∀ a b c : List Char, a ≠ [] → b ≠ [] → c ≠ [] →
      a.all Char.isDigit = true → b.all Char.isDigit = true →
      c.all Char.isDigit = true →
      timestampMinutes (a ++ ':' :: (b ++ ':' :: c)) =
        Except.ok ((toNatDigits a : ℚ) * 60 + (toNatDigits b : ℚ) +
          (toNatDigits c : ℚ) / 60)) ∧
    (∀ ts : List Char, (pySplit ':' ts).length ≠ 2 → (pySplit ':' ts).length ≠ 3 →
      timestampMinutes ts = Except.ok 0) ∧
    timestampMinutes ['5', ':', '3', '0'] = Except.ok 5.5 ∧
    timestampMinutes ['1', ':', '0', '2', ':', '1', '5'] = Except.ok 62.25 ∧
    (∀ (pre post : List (List Char)) (ts : List Char),
      timestampMinutes ts = Except.error () →
      fallbackDurations (pre ++ ts :: post) = []) := by
  refine ⟨timestampMinutes_two, timestampMinutes_three, timestampMinutes_other, ?_, ?_, ?_⟩
  · rw [show (['5', ':', '3', '0'] : List Char) = ['5'] ++ ':' :: ['3', '0'] from rfl]
    rw [timestampMinutes_two ['5'] ['3', '0'] (by decide) (by decide) (by decide) (by decide)]
    rw [show toNatDigits ['5'] = 5 from by decide, show toNatDigits ['3', '0'] = 30 from by decide]
    congr 1
    norm_num
  · rw [show (['1', ':', '0', '2', ':', '1', '5'] : List Char) =
      ['1'] ++ ':' :: (['0', '2'] ++ ':' :: ['1', '5']) from rfl]
    rw [timestampMinutes_three ['1'] ['0', '2'] ['1', '5'] (by decide) (by decide)
      (by decide) (by decide) (by decide) (by decide)]
    rw [show toNatDigits ['1'] = 1 from by decide, show toNatDigits ['0', '2'] = 2 from by decide,
      show toNatDigits ['1', '5'] = 15 from by decide]
    congr 1
    norm_num
  · intro pre post ts h
    rw [fallbackDurations, fallbackLoop_error pre post ts h]

theorem claim_C7_witness :
    timestampMinutes (['5'] ++ ':' :: ['3', '0']) =
      Except.ok ((toNatDigits ['5'] : ℚ) + (toNatDigits ['3', '0'] : ℚ) / 60) :=
  claim_C7_amended.1 ['5'] ['3', '0'] (by decide) (by decide) (by decide) (by decide)

end MLService
